import Mathlib

/-!
Verification development for the bulk/personalized SMS sending feature.

The definitions below are a shallow embedding of the two source files:
the client orchestration hook (useSMS.sendSMS together with its helpers
sendBulkSMS and logSMSCampaign) and the serverless edge function handler
(the Deno.serve variant that performs recipient bookkeeping).  External
effects are made explicit: the relational store is an in-memory DB value,
the gateway and the random token generator are oracles supplied in an
environment, and JS exceptions are an Except value threaded to the
enclosing catch.
-/

namespace HhSms

/-! ## JS string primitives -/

/-- The whitespace class of a JS regular expression backslash-s and of
String.prototype.trim: ASCII whitespace, NBSP, the Unicode space block,
line and paragraph separators, and the BOM. -/
def wsChar (c : Char) : Bool :=
  c == ' ' || c == '\t' || c == '\n' || c == '\r' ||
  c == '\x0b' || c == '\x0c' ||
  c == ' ' || c == ' ' ||
  (0x2000 ≤ c.toNat && c.toNat ≤ 0x200a) ||
  c == ' ' || c == ' ' || c == ' ' ||
  c == ' ' || c == '　' || c == '﻿'

/-- Boolean prefix test on character lists. -/
def leadsWith : List Char → List Char → Bool
  | [], _ => true
  | _ :: _, [] => false
  | p :: ps, c :: cs => p == c && leadsWith ps cs

/-- Boolean substring test on character lists (JS String.prototype.includes). -/
def containsSubL (pat : List Char) : List Char → Bool
  | [] => pat.isEmpty
  | c :: t => leadsWith pat (c :: t) || containsSubL pat t

/-- JS includes: does s contain pat as a contiguous substring. -/
def strContains (s pat : String) : Bool := containsSubL pat.data s.data

/-- JS String.prototype.trim. -/
def jsTrim (s : String) : String :=
  String.mk (((s.data.dropWhile wsChar).reverse.dropWhile wsChar).reverse)

/-- The literal placeholder the hook detects with message.includes. -/
def placeholderExact : String := "\x7b\x7b link \x7d\x7d"

/-- One attempted match of the regex for the placeholder (open braces,
optional whitespace, the word link, optional whitespace, close braces) at
the head of the list; on success, the remainder after the match. -/
def matchPh (s : List Char) : Option (List Char) :=
  match s with
  | '{' :: '{' :: rest =>
    match rest.dropWhile wsChar with
    | 'l' :: 'i' :: 'n' :: 'k' :: r2 =>
      match r2.dropWhile wsChar with
      | '}' :: '}' :: r4 => some r4
      | _ => none
    | _ => none
  | _ => none

/-- Global regex replacement of the placeholder by the positional marker,
scanning left to right, fuelled by the input length (a successful match
always consumes at least one character, so the fuel never runs out on the
call below). -/
def replacePhAux : Nat → List Char → List Char
  | 0, s => s
  | _ + 1, [] => []
  | fuel + 1, c :: t =>
    match matchPh (c :: t) with
    | some r => '[' :: '%' :: '1' :: '%' :: ']' :: replacePhAux fuel r
    | none => c :: replacePhAux fuel t

/-- message.replace of the whitespace-tolerant placeholder regex, global
flag, with the SMSAPI positional marker. -/
def replacePh (s : String) : String :=
  String.mk (replacePhAux s.data.length s.data)

/-- JS Math.round applied to the rational num / den (round half up). -/
def jsRound2 (num den : Nat) : Nat := (2 * num + den) / (2 * den)

/-! ## Joining and splitting personalization links -/

/-- Array.prototype.join with separator bar. -/
def joinLinks : List String → String
  | [] => ""
  | [x] => x
  | x :: xs => x ++ "|" ++ joinLinks xs

/-- String split on the bar character, at the character-list level. -/
def splitBar : List Char → List (List Char)
  | [] => [[]]
  | c :: t =>
    if c = '|' then [] :: splitBar t
    else
      match splitBar t with
      | [] => [[c]]
      | h :: r => (c :: h) :: r

/-- The bar-separated segments of a string. -/
def splitLinks (s : String) : List String := (splitBar s.data).map String.mk

/-! ## Data model: the relational store -/

structure UserRow where
  phone : String
  uid : Nat
  country : String
  status : String
deriving DecidableEq

structure RecipRow where
  cid : String
  uid : Nat
  status : String
  token : String
deriving DecidableEq

structure LogRow where
  typ : String
  content : String
  recipientCount : Nat
  sentCount : Nat
  status : String
  cid : Option String
deriving DecidableEq

structure DB where
  users : List UserRow
  nextUid : Nat
  recips : List RecipRow
  logs : List LogRow
  campaigns : List (String × String)
deriving DecidableEq

def dbEmpty : DB := { users := [], nextUid := 0, recips := [], logs := [], campaigns := [] }

/-- users select id where phone_number equals p, single(): first matching row. -/
def lookupUser (db : DB) (p : String) : Option Nat :=
  (db.users.find? (fun u => u.phone == p)).map (fun u => u.uid)

/-- campaign_recipients select unique_token for (campaign_id, user_id), single(). -/
def lookupRecip (db : DB) (cid : String) (uid : Nat) : Option String :=
  (db.recips.find? (fun r => r.cid == cid && r.uid == uid)).map (fun r => r.token)

/-! ## The hook: request, response and environment -/

structure SMSReq where
  recipients : List String
  message : String
  sender : Option String
  test : Bool
  campaignId : Option String
deriving DecidableEq

structure SMSResp where
  success : Bool
  sentCount : Option Nat
  totalRecipients : Option Nat
  messageIds : Option (List String)
  cost : Option Nat
  currency : Option String
  invalidNumbers : Option (List String)
  errors : Option (List String)
  error : Option String
deriving DecidableEq

/-- The error object a failed supabase.functions.invoke yields. -/
structure InvokeErr where
  message : Option String
  contextError : Option String
deriving DecidableEq

/-- One edge-function invocation outcome: either an invoke error or the
parsed data object. -/
structure InvokeOut where
  err : Option InvokeErr
  data : SMSResp
deriving DecidableEq

/-- The oracles of one hook invocation: the pure phone utilities imported
from phoneValidation (absent from the sources, hence abstract), the page
origin, the stream of Math.random tokens, the injected outcome of each
database insert (indexed by the running recipient-resolution counter, none
meaning success), the response of each edge call, whether the audit insert
fails, and how many progress-interval ticks elapse in the plain branch. -/
structure HookEnv where
  normalize : String → String
  country : String → Option String
  origin : String
  tokenAt : Nat → String
  userInsertErr : Nat → Option String
  recipInsertErr : Nat → Option String
  gatewayResp : Nat → InvokeOut
  logInsertFails : Bool
  plainTicks : Nat

/-- Resolver state threaded through one invocation: the store, the count of
Math.random calls, the count of recipients resolved so far, and the shared
errors array of the results object. -/
structure RState where
  db : DB
  tokenCtr : Nat
  resCtr : Nat
  errors : List String
deriving DecidableEq

/-- The observation of one resolved recipient: the normalized phone pushed
to batchRecipients, the link pushed to batchLinks, the value of the
uniqueToken variable, and the caught error message if the try block threw. -/
structure ROut where
  nphone : String
  link : String
  token : String
  failed : Option String
deriving DecidableEq

/-- Find-or-create of the campaign_recipients row for (cid, uid): reuse the
existing token and update its status to sent, or generate a token and
insert; an insert failure is the thrown error. -/
def resolveRecipStep (env : HookEnv) (cid : String) (st : RState) (uid : Nat) :
    RState × Except String String :=
  match lookupRecip st.db cid uid with
  | some tok =>
    ({ st with db := { st.db with
        recips := st.db.recips.map (fun r =>
          if r.cid == cid && r.uid == uid then { r with status := "sent" } else r) } },
     Except.ok tok)
  | none =>
    let tok := env.tokenAt st.tokenCtr
    let st1 := { st with tokenCtr := st.tokenCtr + 1 }
    match env.recipInsertErr st.resCtr with
    | some e => (st1, Except.error e)
    | none =>
      ({ st1 with db := { st1.db with recips := st1.db.recips ++
          [{ cid := cid, uid := uid, status := "sent", token := tok }] } },
       Except.ok tok)

/-- The try block of one recipient resolution (the campaign short_id fetch
is performed by the code but its result is only logged, never used, so it
does not appear in the state).  With a campaign: find-or-create the user,
then the campaign recipient.  Without one: generate a bare token when the
message is personalized. -/
def resolveOneTry (env : HookEnv) (cido : Option String) (hasLink : Bool)
    (st : RState) (np : String) : RState × Except String String :=
  match cido with
  | some cid =>
    match lookupUser st.db np with
    | some uid => resolveRecipStep env cid st uid
    | none =>
      match env.userInsertErr st.resCtr with
      | some e => (st, Except.error e)
      | none =>
        let uid := st.db.nextUid
        let st1 := { st with db := { st.db with
          users := st.db.users ++
            [{ phone := np, uid := uid,
               country := (env.country np).getD "Unknown", status := "active" }],
          nextUid := uid + 1 } }
        resolveRecipStep env cid st1 uid
  | none =>
    if hasLink then
      ({ st with tokenCtr := st.tokenCtr + 1 }, Except.ok (env.tokenAt st.tokenCtr))
    else (st, Except.ok "")

/-- One recipient of a batch: normalize, run the try block, and on a caught
error record it and still push the recipient with an empty link. -/
def resolveOne (env : HookEnv) (cido : Option String) (hasLink : Bool)
    (st : RState) (phone : String) : RState × ROut :=
  let np := env.normalize phone
  match resolveOneTry env cido hasLink st np with
  | (st1, Except.ok tok) =>
    ({ st1 with resCtr := st1.resCtr + 1 },
     { nphone := np,
       link := if hasLink && !(tok == "") then env.origin ++ "/" ++ tok else "",
       token := tok, failed := none })
  | (st1, Except.error e) =>
    ({ st1 with resCtr := st1.resCtr + 1, errors := st1.errors ++ [np ++ ": " ++ e] },
     { nphone := np, link := "", token := "", failed := some e })

/-- The inner loop over one batch, in order. -/
def resolveBatch (env : HookEnv) (cido : Option String) (hasLink : Bool) :
    RState → List String → RState × List ROut
  | st, [] => (st, [])
  | st, p :: rest =>
    let so := resolveOne env cido hasLink st p
    let rest2 := resolveBatch env cido hasLink so.1 rest
    (rest2.1, so.2 :: rest2.2)

/-! ## Batching and the per-batch gateway call -/

/-- Slicing loop, fuelled by the list length (each slice removes at least
one element, so the fuel suffices on the call below). -/
def chunkAux : Nat → List String → List (List String)
  | 0, _ => []
  | _ + 1, [] => []
  | fuel + 1, c :: t => (c :: t).take 100 :: chunkAux fuel ((c :: t).drop 100)

/-- The fixed SMSAPI personalization batch size of the hook: slices of up
to 100 recipients, in order. -/
def chunk100 (l : List String) : List (List String) := chunkAux l.length l

/-- The body the hook posts to the edge function for one batch. -/
structure GatewayCall where
  recipients : List String
  message : String
  sender : String
  test : Bool
  param1 : Option String
deriving DecidableEq

/-- Accumulated counters of the results object (its errors array lives in
RState because recipient resolution and batch failures share it). -/
structure Results where
  sentCount : Nat
  messageIds : List String
  cost : Nat
  invalidNumbers : List String
deriving DecidableEq

/-- Build the invoke body for one batch from the resolved recipients. -/
def mkBatchCall (hasLink : Bool) (msg sender : String) (test : Bool)
    (outs : List ROut) : GatewayCall :=
  { recipients := outs.map (fun o => o.nphone),
    message := jsTrim (if hasLink then replacePh msg else msg),
    sender := sender, test := test,
    param1 := if hasLink then some (joinLinks (outs.map (fun o => o.link))) else none }

/-- Fold one edge response into the running results: an invoke error or an
unsuccessful data object records a batch error; a successful one adds its
sent count, ids and cost. -/
def applyResp (bIdx : Nat) (io : InvokeOut) (st : RState) (res : Results) :
    RState × Results :=
  match io.err with
  | some e =>
    ({ st with errors := st.errors ++
        ["Batch " ++ toString (bIdx + 1) ++ ": " ++ (e.message.getD "undefined")] }, res)
  | none =>
    if io.data.success then
      (st, { res with
        sentCount := res.sentCount + (io.data.sentCount.getD 0),
        messageIds := res.messageIds ++ (io.data.messageIds.getD []),
        cost := res.cost + (io.data.cost.getD 0) })
    else
      ({ st with errors := st.errors ++
          ["Batch " ++ toString (bIdx + 1) ++ ": " ++ (io.data.error.getD "Unknown error")] },
       { res with invalidNumbers := res.invalidNumbers ++ (io.data.invalidNumbers.getD []) })

/-- The record this embedding keeps of one processed batch. -/
structure BatchRecord where
  batch : List String
  outs : List ROut
  call : GatewayCall
deriving DecidableEq

/-- The accumulator of the outer loop over batches. -/
structure PAcc where
  st : RState
  res : Results
  records : List BatchRecord
  progress : List Nat
deriving DecidableEq

/-- The outer loop: resolve the batch, invoke the edge function once,
fold the response, report progress. -/
def processBatches (env : HookEnv) (cido : Option String) (hasLink : Bool)
    (msg sender : String) (test : Bool) (total : Nat) :
    Nat → PAcc → List (List String) → PAcc
  | _, acc, [] => acc
  | bIdx, acc, b :: rest =>
    let pr := resolveBatch env cido hasLink acc.st b
    let call := mkBatchCall hasLink msg sender test pr.2
    let stRes := applyResp bIdx (env.gatewayResp bIdx) pr.1 acc.res
    processBatches env cido hasLink msg sender test total (bIdx + 1)
      { st := stRes.1, res := stRes.2,
        records := acc.records ++ [{ batch := b, outs := pr.2, call := call }],
        progress := acc.progress ++ [jsRound2 (90 * (bIdx + 1)) total] } rest

/-! ## The hook entry point -/

/-- The recipient filter of the hook: non-empty after trimming and not the
literal strings null or undefined. -/
def validRecipient (p : String) : Bool :=
  !(jsTrim p == "") && !(p == "null") && !(p == "undefined")

def defaultResp : SMSResp :=
  { success := false, sentCount := none, totalRecipients := none, messageIds := none,
    cost := none, currency := none, invalidNumbers := none, errors := none, error := none }

/-- The response the outer catch builds from a thrown error. -/
def catchResp (m : String) : SMSResp := { defaultResp with success := false, error := some m }

/-- The error-message mapping of the plain-bulk branch for a failed invoke. -/
def mapPlainErr (e : InvokeErr) : String :=
  match e.message with
  | some m =>
    if strContains m "Failed to fetch" then
      "Unable to connect to SMS service. Please check your internet connection and Supabase configuration."
    else if strContains m "non-2xx status" then
      "SMS service returned an error. Please check that SMSAPI_TOKEN is configured in Supabase Edge Functions settings."
    else
      match e.contextError with
      | some ce => ce
      | none => m
  | none =>
    match e.contextError with
    | some ce => ce
    | none => "SMS sending failed"

/-- Everything one hook invocation leaves behind besides the returned
response: the bodies posted to the edge function (in order), the batch
records, the setProgress values (in order), and the final store. -/
structure HookTrace where
  calls : List GatewayCall
  records : List BatchRecord
  progress : List Nat
  db : DB
deriving DecidableEq

/-- The try block of sendSMS: validation, branch decision, the plain bulk
passthrough, or the personalized batching flow.  A thrown JS error is the
Except.error case. -/
def sendSMSBody (env : HookEnv) (req : SMSReq) (db0 : DB) :
    HookTrace × Except String SMSResp :=
  if req.recipients.isEmpty then
    ({ calls := [], records := [], progress := [0], db := db0 },
     Except.error "No recipients provided")
  else
    let valid := req.recipients.filter validRecipient
    if valid.isEmpty then
      ({ calls := [], records := [], progress := [0], db := db0 },
       Except.error "No valid recipients found")
    else
      let hasLink := strContains req.message placeholderExact
      if req.campaignId.isNone && !hasLink then
        let call : GatewayCall :=
          { recipients := valid, message := jsTrim req.message,
            sender := req.sender.getD "BulkComm", test := req.test, param1 := none }
        let io := env.gatewayResp 0
        let progress := 0 :: ((List.range env.plainTicks).map (fun k => min ((k + 1) * 10) 90)) ++ [100]
        match io.err with
        | some e =>
          ({ calls := [call], records := [], progress := progress, db := db0 },
           Except.error (mapPlainErr e))
        | none =>
          ({ calls := [call], records := [], progress := progress, db := db0 },
           Except.ok io.data)
      else
        let batches := chunk100 valid
        let acc0 : PAcc :=
          { st := { db := db0, tokenCtr := 0, resCtr := 0, errors := [] },
            res := { sentCount := 0, messageIds := [], cost := 0, invalidNumbers := [] },
            records := [], progress := [] }
        let run := processBatches env req.campaignId hasLink req.message
          (req.sender.getD "BulkComm") req.test batches.length 0 acc0 batches
        let success := !(run.res.sentCount == 0)
        let errOpt := if run.res.sentCount == 0
          then some (run.st.errors.headD "No messages were sent successfully")
          else none
        let db1 := if success && decide (0 < run.res.sentCount) && !env.logInsertFails then
            { run.st.db with logs := run.st.db.logs ++
              [{ typ := "sms", content := req.message, recipientCount := valid.length,
                 sentCount := run.res.sentCount, status := "completed",
                 cid := req.campaignId }] }
          else run.st.db
        ({ calls := run.records.map (fun r => r.call), records := run.records,
           progress := 0 :: run.progress ++ [100], db := db1 },
         Except.ok
           { success := success, sentCount := some run.res.sentCount,
             totalRecipients := some valid.length,
             messageIds := some run.res.messageIds, cost := some run.res.cost,
             currency := some "EUR",
             invalidNumbers := some run.res.invalidNumbers,
             errors := some run.st.errors, error := errOpt })

/-- What sendSMS observably does: run the body and convert a thrown error
into a success false response with its message (the outer catch). -/
structure HookOut where
  resp : SMSResp
  trace : HookTrace
deriving DecidableEq

def sendSMSModel (env : HookEnv) (req : SMSReq) (db0 : DB) : HookOut :=
  match sendSMSBody env req db0 with
  | (tr, Except.ok r) => { resp := r, trace := tr }
  | (tr, Except.error m) => { resp := catchResp m, trace := tr }

/-- The batching run the personalized branch of sendSMSBody performs,
named so the theorems below can speak about it. -/
def personalRun (env : HookEnv) (req : SMSReq) (db0 : DB) : PAcc :=
  processBatches env req.campaignId (strContains req.message placeholderExact)
    req.message (req.sender.getD "BulkComm") req.test
    (chunk100 (req.recipients.filter validRecipient)).length 0
    { st := { db := db0, tokenCtr := 0, resCtr := 0, errors := [] },
      res := { sentCount := 0, messageIds := [], cost := 0, invalidNumbers := [] },
      records := [], progress := [] }
    (chunk100 (req.recipients.filter validRecipient))

/-- The audit row the hook writes on success. -/
def hookLogRow (req : SMSReq) (db0 : DB) (env : HookEnv) : LogRow :=
  { typ := "sms", content := req.message,
    recipientCount := (req.recipients.filter validRecipient).length,
    sentCount := (personalRun env req db0).res.sentCount, status := "completed",
    cid := req.campaignId }

/-! ## The edge function (the Deno.serve handler with recipient bookkeeping)

The database reads and writes of this handler are modelled as always
succeeding against the in-memory store (their failure branches return
early with a 500 and are not exercised by any claim); the provider
response, the configuration values and the token stream are oracles. -/

structure EdgeReq where
  recipients : List String
  message : String
  sender : Option String
  test : Bool
  campaignId : Option String
deriving DecidableEq

structure ProviderEntry where
  id : String
  points : Nat
  number : String
deriving DecidableEq

/-- The parsed provider response body, or an unparseable one. -/
inductive ProviderResp where
  | unparseable (raw : String)
  | parsed (error : Option Nat) (message : Option String) (count : Option Nat)
      (list : Option (List ProviderEntry)) (invalid : Option (List String))
deriving DecidableEq

structure EdgeEnv where
  supabaseConfigOk : Bool
  publicBaseUrl : String
  smsapiToken : Option String
  tokenAt : Nat → String
  provider : ProviderResp

structure EdgeResp where
  status : Nat
  success : Bool
  error : Option String
  errorCode : Option Nat
  sentCount : Option Nat
  totalRecipients : Option Nat
deriving DecidableEq

structure EdgeOut where
  resp : EdgeResp
  db : DB
  providerCalls : List GatewayCall
deriving DecidableEq

def edgeErr (status : Nat) (msg : String) (db : DB) (calls : List GatewayCall) : EdgeOut :=
  { resp := { status := status, success := false, error := some msg, errorCode := none,
              sentCount := none, totalRecipients := none },
    db := db, providerCalls := calls }

/-- The ordered dialing-prefix table of the handler. -/
def edgePrefixes : List (String × String) :=
  [("+359", "BG"), ("+380", "UA"), ("+48", "PL"), ("+40", "RO"), ("+36", "HU"),
   ("+420", "CZ"), ("+421", "SK"), ("+385", "HR"), ("+386", "SI"), ("+381", "RS"),
   ("+49", "DE"), ("+33", "FR"), ("+39", "IT"), ("+34", "ES"), ("+31", "NL"),
   ("+32", "BE"), ("+43", "AT"), ("+41", "CH"), ("+44", "GB"), ("+1", "US")]

def detectCountryEdge (p : String) : String :=
  match edgePrefixes.find? (fun pr => leadsWith pr.1.data p.data) with
  | some pr => pr.2
  | none => "Unknown"

/-- The known provider error codes and their messages. -/
def edgeErrCodes : List (Nat × String) :=
  [(11, "Message too long or contains invalid characters"),
   (13, "No valid phone numbers provided"),
   (14, "Invalid sender name"),
   (101, "Invalid authorization"),
   (103, "Insufficient credits"),
   (105, "IP address not allowed"),
   (112, "Sending to this country is restricted"),
   (203, "Too many requests, please try again later")]

def edgeErrMsg (code : Nat) : Option String :=
  (edgeErrCodes.find? (fun x => x.1 == code)).map (fun x => x.2)

/-- The per-phone loop of Step 5: reuse the fetched token of the user
behind the phone, or generate one and queue a new campaign_recipients
row. -/
structure CampState where
  tokenMap : List (String × String)
  newRows : List RecipRow
  ctr : Nat
deriving DecidableEq

def campFold (env : EdgeEnv) (cid : String) (uidOf : String → Option Nat)
    (eTok : Nat → Option String) : CampState → List String → CampState
  | s, [] => s
  | s, p :: rest =>
    match uidOf p with
    | none => campFold env cid uidOf eTok s rest
    | some uid =>
      match eTok uid with
      | some tok =>
        campFold env cid uidOf eTok { s with tokenMap := s.tokenMap ++ [(p, tok)] } rest
      | none =>
        let tok := env.tokenAt s.ctr
        campFold env cid uidOf eTok
          { tokenMap := s.tokenMap ++ [(p, tok)],
            newRows := s.newRows ++ [{ cid := cid, uid := uid, status := "sent", token := tok }],
            ctr := s.ctr + 1 } rest

/-- The Deno.serve handler: validation, configuration, user and campaign
recipient bookkeeping, link generation, message preparation, the provider
auth-token check, the provider call and the audit log. -/
def edgeHandler (env : EdgeEnv) (req : EdgeReq) (db0 : DB) : EdgeOut :=
  if req.recipients.isEmpty then
    edgeErr 400 "Recipients array is required and cannot be empty" db0 []
  else if jsTrim req.message == "" then
    edgeErr 400 "Message content is required" db0 []
  else if !env.supabaseConfigOk then
    edgeErr 500 "Supabase configuration missing" db0 []
  else
    let hasLink := strContains req.message placeholderExact
    let shortIdRes : Except EdgeOut (Option String) :=
      match req.campaignId with
      | some cid =>
        if hasLink then
          match db0.campaigns.find? (fun c => c.1 == cid) with
          | none => Except.error (edgeErr 400 "Campaign not found or invalid campaign ID" db0 [])
          | some c => Except.ok (some c.2)
        else Except.ok none
      | none => Except.ok none
    match shortIdRes with
    | Except.error out => out
    | Except.ok campaignShortId =>
      let existing := db0.users.filter (fun u => req.recipients.contains u.phone)
      let existingLookup := fun p =>
        ((existing.filter (fun u => u.phone == p)).getLast?).map (fun u => u.uid)
      let newPhones := req.recipients.filter (fun p => !(existing.any (fun u => u.phone == p)))
      let insertedUsers := (newPhones.zip (List.range newPhones.length)).map (fun pi =>
        ({ phone := pi.1, uid := db0.nextUid + pi.2,
           country := detectCountryEdge pi.1, status := "active" } : UserRow))
      let db1 := { db0 with
        users := db0.users ++ insertedUsers,
        nextUid := db0.nextUid + insertedUsers.length }
      let newLookup := fun p =>
        ((insertedUsers.filter (fun u => u.phone == p)).getLast?).map (fun u => u.uid)
      let uidOf := fun p =>
        match existingLookup p with
        | some i => some i
        | none => newLookup p
      let step5 : DB × List (String × String) :=
        match req.campaignId with
        | none => (db1, [])
        | some cid =>
          let userIds := req.recipients.filterMap uidOf
          let existingRecips := db1.recips.filter (fun r => r.cid == cid && userIds.contains r.uid)
          let eTok := fun uid =>
            ((existingRecips.filter (fun r => r.uid == uid)).getLast?).map (fun r => r.token)
          let cs := campFold env cid uidOf eTok { tokenMap := [], newRows := [], ctr := 0 } req.recipients
          let db2 := { db1 with recips := db1.recips ++ cs.newRows }
          let existingUids := existingRecips.map (fun r => r.uid)
          let db3 := if existingUids.isEmpty then db2
            else { db2 with recips := db2.recips.map (fun r =>
              if r.cid == cid && existingUids.contains r.uid then { r with status := "sent" } else r) }
          (db3, cs.tokenMap)
      let dbA := step5.1
      let tokenMap := step5.2
      let getTok := fun p => ((tokenMap.filter (fun x => x.1 == p)).getLast?).map (fun x => x.2)
      let links := if hasLink then
          req.recipients.map (fun p =>
            if req.campaignId.isSome && campaignShortId.isSome && (getTok p).isSome then
              env.publicBaseUrl ++ "/c/" ++ (campaignShortId.getD "") ++ "?token=" ++ ((getTok p).getD "")
            else
              match getTok p with
              | some tok => env.publicBaseUrl ++ "/" ++ tok
              | none => env.publicBaseUrl)
        else []
      let personalize := hasLink && !links.isEmpty
      let finalMessage := if personalize then replacePh (jsTrim req.message) else jsTrim req.message
      let param1Value := if personalize then some (joinLinks links) else none
      match env.smsapiToken with
      | none => edgeErr 500 "SMSAPI token not configured" dbA []
      | some _ =>
        let call : GatewayCall :=
          { recipients := req.recipients, message := finalMessage,
            sender := req.sender.getD "BulkComm", test := req.test, param1 := param1Value }
        match env.provider with
        | ProviderResp.unparseable _ =>
          { resp := { status := 500, success := false,
                      error := some "Invalid response from SMS provider", errorCode := none,
                      sentCount := none, totalRecipients := none },
            db := dbA, providerCalls := [call] }
        | ProviderResp.parsed errCode pmsg count list _ =>
          match errCode with
          | some code =>
            let dbB := if !req.test then
                { dbA with logs := dbA.logs ++
                  [{ typ := "sms", content := req.message, recipientCount := req.recipients.length,
                     sentCount := 0, status := "failed", cid := req.campaignId }] }
              else dbA
            { resp := { status := 400, success := false,
                        error := some ((edgeErrMsg code).getD
                          ("SMS API Error: " ++ (pmsg.getD (toString code)))),
                        errorCode := some code, sentCount := none, totalRecipients := none },
              db := dbB, providerCalls := [call] }
          | none =>
            let sentCount := count.getD 0
            let dbB := match req.campaignId, list with
              | some cid, some lst =>
                let succNums := lst.map (fun e => e.number)
                let succUids := (req.recipients.filter (fun p => succNums.contains p)).filterMap uidOf
                if succUids.isEmpty then dbA
                else { dbA with recips := dbA.recips.map (fun r =>
                  if r.cid == cid && succUids.contains r.uid then { r with status := "sent" } else r) }
              | _, _ => dbA
            let dbC := if !req.test then
                { dbB with logs := dbB.logs ++
                  [{ typ := "sms", content := req.message, recipientCount := req.recipients.length,
                     sentCount := sentCount,
                     status := (if 0 < sentCount then "completed" else "failed"),
                     cid := req.campaignId }] }
              else dbB
            { resp := { status := 200, success := true, error := none, errorCode := none,
                        sentCount := some sentCount, totalRecipients := some req.recipients.length },
              db := dbC, providerCalls := [call] }

/-! ## Invariants and observations used by the statements -/

/-- The string contains no bar character, so it survives join and split on
bars as one segment. -/
abbrev noBarS (s : String) : Prop := ('|' : Char) ∉ s.data

/-- Every campaign-recipient token in the store is bar-free. -/
abbrev InvTok (db : DB) : Prop := ∀ r ∈ db.recips, noBarS r.token

/-- The per-batch facts the personalized flow guarantees for each batch
record it produces: the posted recipients are the resolved recipients in
order, those are the normalized batch in order, with personalization the
posted param1 is the bar-join of the per-recipient links in the same
order, and each link is bar-free. -/
def GoodRec (env : HookEnv) (hl : Bool) (r : BatchRecord) : Prop :=
  r.call.recipients = r.outs.map (fun o => o.nphone) ∧
  r.outs.map (fun o => o.nphone) = r.batch.map env.normalize ∧
  (hl = true → r.call.param1 = some (joinLinks (r.outs.map (fun o => o.link)))) ∧
  ∀ o ∈ r.outs, noBarS o.link

/-! ## Concrete fixtures for witnesses and counterexamples -/

def msgLink : String := "Visit \x7b\x7b link \x7d\x7d"
def msgTight : String := "Visit \x7b\x7blink\x7d\x7d"
def msgWide : String := "Visit \x7b\x7b  link  \x7d\x7d"

def reqOf (rs : List String) (m : String) (cid : Option String) (t : Bool) : SMSReq :=
  { recipients := rs, message := m, sender := none, test := t, campaignId := cid }

/-- A benign environment: every store operation succeeds, every gateway
call reports one message sent at zero cost. -/
def envOk : HookEnv :=
  { normalize := id, country := fun _ => none, origin := "https://x",
    tokenAt := fun _ => "T",
    userInsertErr := fun _ => none, recipInsertErr := fun _ => none,
    gatewayResp := fun _ =>
      { err := none,
        data := { defaultResp with success := true, sentCount := some 1, cost := some 0 } },
    logInsertFails := false, plainTicks := 0 }

/-- An environment where the first user insert fails and every gateway
call reports a provider failure. -/
def envC2x : HookEnv :=
  { envOk with
    userInsertErr := fun k => if k == 0 then some "DBFail" else none,
    gatewayResp := fun _ =>
      { err := none, data := { defaultResp with success := false, error := some "GWFail" } } }

def uniqViolationMsg : String := "duplicate key value violates unique constraint"

/-- The first user insert hits the uniqueness constraint (a concurrent
invocation inserted the row between the lookup and the insert). -/
def envC7u : HookEnv :=
  { envOk with userInsertErr := fun k => if k == 0 then some uniqViolationMsg else none }

/-- The first campaign-recipient insert hits the uniqueness constraint. -/
def envC7r : HookEnv :=
  { envOk with recipInsertErr := fun k => if k == 0 then some uniqViolationMsg else none }

def st0 : RState := { db := dbEmpty, tokenCtr := 0, resCtr := 0, errors := [] }

/-- A store already holding the user for phone p. -/
def dbU : DB :=
  { dbEmpty with users := [{ phone := "p", uid := 7, country := "BG", status := "active" }] }

/-- Edge environment with everything configured except the provider auth
token. -/
def eenvNoTok : EdgeEnv :=
  { supabaseConfigOk := true, publicBaseUrl := "https://base", smsapiToken := none,
    tokenAt := fun _ => "T",
    provider := ProviderResp.parsed none none none none none }

def ereqC9 : EdgeReq :=
  { recipients := ["+420777123456"], message := "hello", sender := none,
    test := false, campaignId := none }

/-! # Theorems -/

/-! ## String lemmas -/

theorem sdata_append (a b : String) : (a ++ b).data = a.data ++ b.data := rfl

theorem smk_data (s : String) : String.mk s.data = s := rfl

theorem noBarS_append {a b : String} (ha : noBarS a) (hb : noBarS b) : noBarS (a ++ b) := by
  intro h
  rw [sdata_append] at h
  rcases List.mem_append.mp h with h | h
  · exact ha h
  · exact hb h

theorem splitBar_nobar (l : List Char) (h : ('|' : Char) ∉ l) : splitBar l = [l] := by
  induction l with
  | nil => rfl
  | cons c t ih =>
    have hc : ¬(c = '|') := by
      intro e
      exact h (by simp [e])
    have ht : ('|' : Char) ∉ t := fun m => h (List.mem_cons_of_mem _ m)
    simp only [splitBar, if_neg hc, ih ht]

theorem splitBar_bar_append (l rest : List Char) (h : ('|' : Char) ∉ l) :
    splitBar (l ++ '|' :: rest) = l :: splitBar rest := by
  induction l with
  | nil => simp [splitBar]
  | cons c t ih =>
    have hc : ¬(c = '|') := by
      intro e
      exact h (by simp [e])
    have ht : ('|' : Char) ∉ t := fun m => h (List.mem_cons_of_mem _ m)
    simp only [List.cons_append, splitBar, if_neg hc, List.append_eq, ih ht]

theorem joinLinks_cons (x : String) (y : String) (ys : List String) :
    joinLinks (x :: y :: ys) = x ++ "|" ++ joinLinks (y :: ys) := rfl

theorem splitLinks_joinLinks (ls : List String) (h0 : ls ≠ [])
    (hb : ∀ s ∈ ls, noBarS s) : splitLinks (joinLinks ls) = ls := by
  induction ls with
  | nil => exact absurd rfl h0
  | cons x xs ih =>
    cases xs with
    | nil =>
      show splitLinks (joinLinks [x]) = [x]
      have hx : noBarS x := hb x (by simp)
      simp only [joinLinks, splitLinks, splitBar_nobar x.data hx, List.map, smk_data]
    | cons y ys =>
      have hx : noBarS x := hb x (by simp)
      have hdata : (joinLinks (x :: y :: ys)).data =
          x.data ++ '|' :: (joinLinks (y :: ys)).data := by
        rw [joinLinks_cons, sdata_append, sdata_append, List.append_assoc]
        rfl
      have hrest : splitLinks (joinLinks (y :: ys)) = y :: ys :=
        ih (by simp) (fun s hs => hb s (List.mem_cons_of_mem _ hs))
      unfold splitLinks at hrest ⊢
      rw [hdata, splitBar_bar_append _ _ hx]
      simp only [List.map, smk_data]
      rw [hrest]

/-! ## Chunking lemmas -/

theorem chunkAux_congr :
    ∀ (n m : Nat) (l : List String), l.length ≤ n → l.length ≤ m →
      chunkAux n l = chunkAux m l := by
  intro n
  induction n with
  | zero =>
    intro m l hn _
    have : l = [] := List.length_eq_zero.mp (Nat.le_zero.mp hn)
    subst this
    cases m <;> rfl
  | succ n ih =>
    intro m l hn hm
    cases l with
    | nil => cases m <;> rfl
    | cons a t =>
      cases m with
      | zero => simp at hm
      | succ m =>
        simp only [chunkAux]
        congr 1
        apply ih
        · simp only [List.length_drop, List.length_cons]
          simp only [List.length_cons] at hn
          omega
        · simp only [List.length_drop, List.length_cons]
          simp only [List.length_cons] at hm
          omega

theorem chunk100_eq (l : List String) :
    chunk100 l = if l = [] then [] else l.take 100 :: chunk100 (l.drop 100) := by
  cases l with
  | nil => rfl
  | cons a t =>
    have hne : (a :: t) ≠ ([] : List String) := by simp
    rw [if_neg hne]
    show chunkAux (a :: t).length (a :: t) = (a :: t).take 100 :: chunk100 ((a :: t).drop 100)
    simp only [List.length_cons, chunkAux]
    congr 1
    apply chunkAux_congr
    · simp only [List.length_drop, List.length_cons]
      omega
    · exact le_rfl

theorem chunk100_length_aux :
    ∀ (n : Nat) (l : List String), l.length ≤ n →
      (chunk100 l).length = (l.length + 99) / 100 := by
  intro n
  induction n with
  | zero =>
    intro l hl
    have : l = [] := List.length_eq_zero.mp (Nat.le_zero.mp hl)
    subst this
    simp [chunk100_eq]
  | succ n ih =>
    intro l hl
    by_cases h : l = []
    · subst h
      simp [chunk100_eq]
    · have hm : 0 < l.length := List.length_pos.mpr h
      rw [chunk100_eq, if_neg h]
      simp only [List.length_cons]
      rw [ih (l.drop 100) (by simp [List.length_drop]; omega)]
      simp only [List.length_drop]
      rw [show l.length + 99 = (l.length - 1) + 100 from by omega,
          Nat.add_div_right _ (by norm_num)]
      rcases le_or_lt l.length 100 with hc | hc
      · rw [Nat.div_eq_of_lt (by omega), Nat.div_eq_of_lt (by omega)]
      · congr 1
        omega

theorem chunk100_length (l : List String) :
    (chunk100 l).length = (l.length + 99) / 100 :=
  chunk100_length_aux l.length l le_rfl

theorem chunk100_join_aux :
    ∀ (n : Nat) (l : List String), l.length ≤ n → (chunk100 l).flatten = l := by
  intro n
  induction n with
  | zero =>
    intro l hl
    have : l = [] := List.length_eq_zero.mp (Nat.le_zero.mp hl)
    subst this
    simp [chunk100_eq]
  | succ n ih =>
    intro l hl
    by_cases h : l = []
    · subst h
      simp [chunk100_eq]
    · have hm : 0 < l.length := List.length_pos.mpr h
      rw [chunk100_eq, if_neg h]
      simp only [List.flatten_cons]
      rw [ih (l.drop 100) (by simp [List.length_drop]; omega)]
      exact List.take_append_drop 100 l

theorem chunk100_flatten (l : List String) : (chunk100 l).flatten = l :=
  chunk100_join_aux l.length l le_rfl

theorem chunk100_mem_aux :
    ∀ (n : Nat) (l : List String), l.length ≤ n →
      ∀ b ∈ chunk100 l, b ≠ [] ∧ b.length ≤ 100 := by
  intro n
  induction n with
  | zero =>
    intro l hl
    have : l = [] := List.length_eq_zero.mp (Nat.le_zero.mp hl)
    subst this
    simp [chunk100_eq]
  | succ n ih =>
    intro l hl b hb
    by_cases h : l = []
    · subst h
      simp [chunk100_eq] at hb
    · rw [chunk100_eq, if_neg h] at hb
      have hm : 0 < l.length := List.length_pos.mpr h
      rcases List.mem_cons.mp hb with hb | hb
      · subst hb
        constructor
        · intro e
          have e2 := congrArg List.length e
          rw [List.length_take] at e2
          simp only [List.length_nil] at e2
          omega
        · simp [List.length_take]
      · exact ih (l.drop 100) (by simp [List.length_drop]; omega) b hb

theorem chunk100_mem (l : List String) :
    ∀ b ∈ chunk100 l, b ≠ [] ∧ b.length ≤ 100 :=
  chunk100_mem_aux l.length l le_rfl

/-! ## Resolver lemmas -/

theorem resolveOne_nphone (env : HookEnv) (cido : Option String) (hl : Bool)
    (st : RState) (p : String) :
    ((resolveOne env cido hl st p).2).nphone = env.normalize p := by
  unfold resolveOne
  rcases h : resolveOneTry env cido hl st (env.normalize p) with ⟨st1, ex⟩
  cases ex <;> simp [h]

theorem resolveBatch_nphones (env : HookEnv) (cido : Option String) (hl : Bool) :
    ∀ (b : List String) (st : RState),
      ((resolveBatch env cido hl st b).2).map (fun o => o.nphone) = b.map env.normalize := by
  intro b
  induction b with
  | nil => intro st; rfl
  | cons p rest ih =>
    intro st
    simp only [resolveBatch, List.map_cons]
    rw [resolveOne_nphone, ih]

theorem resolveBatch_length (env : HookEnv) (cido : Option String) (hl : Bool)
    (b : List String) (st : RState) :
    ((resolveBatch env cido hl st b).2).length = b.length := by
  have h := congrArg List.length (resolveBatch_nphones env cido hl b st)
  simpa using h

theorem resolveRecipStep_logs (env : HookEnv) (cid : String) (st : RState) (uid : Nat) :
    ((resolveRecipStep env cid st uid).1).db.logs = st.db.logs := by
  unfold resolveRecipStep
  rcases h : lookupRecip st.db cid uid with _ | tok
  · rcases he : env.recipInsertErr st.resCtr with _ | e <;> simp [h, he]
  · simp [h]

theorem resolveRecipStep_users (env : HookEnv) (cid : String) (st : RState) (uid : Nat) :
    ((resolveRecipStep env cid st uid).1).db.users = st.db.users := by
  unfold resolveRecipStep
  rcases h : lookupRecip st.db cid uid with _ | tok
  · rcases he : env.recipInsertErr st.resCtr with _ | e <;> simp [h, he]
  · simp [h]

theorem resolveOneTry_logs (env : HookEnv) (cido : Option String) (hl : Bool)
    (st : RState) (np : String) :
    ((resolveOneTry env cido hl st np).1).db.logs = st.db.logs := by
  unfold resolveOneTry
  rcases cido with _ | cid
  · by_cases hhl : hl = true
    · simp [hhl]
    · simp [Bool.not_eq_true] at hhl
      simp [hhl]
  · rcases h : lookupUser st.db np with _ | uid
    · rcases he : env.userInsertErr st.resCtr with _ | e
      · simp only [h, he]
        rw [resolveRecipStep_logs]
      · simp [h, he]
    · simp only [h]
      rw [resolveRecipStep_logs]

theorem resolveOne_logs (env : HookEnv) (cido : Option String) (hl : Bool)
    (st : RState) (p : String) :
    ((resolveOne env cido hl st p).1).db.logs = st.db.logs := by
  unfold resolveOne
  rcases h : resolveOneTry env cido hl st (env.normalize p) with ⟨st1, ex⟩
  have hlg : st1.db.logs = st.db.logs := by
    have := resolveOneTry_logs env cido hl st (env.normalize p)
    rw [h] at this
    exact this
  cases ex <;> simp [h, hlg]

theorem resolveBatch_logs (env : HookEnv) (cido : Option String) (hl : Bool) :
    ∀ (b : List String) (st : RState),
      ((resolveBatch env cido hl st b).1).db.logs = st.db.logs := by
  intro b
  induction b with
  | nil => intro st; rfl
  | cons p rest ih =>
    intro st
    simp only [resolveBatch]
    rw [ih, resolveOne_logs]

/-! ## Bar-free link invariants -/

theorem lookupRecip_some_mem (db : DB) (cid : String) (uid : Nat) (tok : String)
    (h : lookupRecip db cid uid = some tok) : ∃ r ∈ db.recips, r.token = tok := by
  unfold lookupRecip at h
  rcases hf : db.recips.find? (fun r => r.cid == cid && r.uid == uid) with _ | r
  · rw [hf] at h
    cases h
  · rw [hf] at h
    simp only [Option.map_some'] at h
    exact ⟨r, List.mem_of_find?_eq_some hf, Option.some.inj h⟩

theorem resolveRecipStep_inv (env : HookEnv) (cid : String) (st : RState) (uid : Nat)
    (hbt : ∀ n, noBarS (env.tokenAt n)) (hInv : InvTok st.db) :
    InvTok ((resolveRecipStep env cid st uid).1).db ∧
    (∀ tok, (resolveRecipStep env cid st uid).2 = Except.ok tok → noBarS tok) := by
  unfold resolveRecipStep
  rcases h : lookupRecip st.db cid uid with _ | tok
  · rcases he : env.recipInsertErr st.resCtr with _ | e
    · simp only [h, he]
      constructor
      · intro r hr
        rcases List.mem_append.mp hr with hr | hr
        · exact hInv r hr
        · rcases List.mem_singleton.mp hr with rfl
          exact hbt st.tokenCtr
      · intro tok htok
        have : env.tokenAt st.tokenCtr = tok := Except.ok.inj htok
        rw [← this]
        exact hbt st.tokenCtr
    · simp only [h, he]
      refine ⟨fun r hr => hInv r hr, fun tok htok => ?_⟩
      cases htok
  · simp only [h]
    constructor
    · intro r hr
      rcases List.mem_map.mp hr with ⟨r0, hr0, rfl⟩
      by_cases hc : (r0.cid == cid && r0.uid == uid) = true
      · simp only [hc, if_pos]
        exact hInv r0 hr0
      · simp only [Bool.not_eq_true] at hc
        simp only [hc]
        exact hInv r0 hr0
    · intro tok' htok
      have := Except.ok.inj htok
      subst this
      rcases lookupRecip_some_mem st.db cid uid _ h with ⟨r0, hm, hteq⟩
      rw [← hteq]
      exact hInv r0 hm

theorem resolveOneTry_inv (env : HookEnv) (cido : Option String) (hl : Bool)
    (st : RState) (np : String)
    (hbt : ∀ n, noBarS (env.tokenAt n)) (hInv : InvTok st.db) :
    InvTok ((resolveOneTry env cido hl st np).1).db ∧
    (∀ tok, (resolveOneTry env cido hl st np).2 = Except.ok tok → tok = "" ∨ noBarS tok) := by
  unfold resolveOneTry
  rcases cido with _ | cid
  · by_cases hhl : hl = true
    · simp only [hhl, if_pos]
      refine ⟨hInv, fun tok htok => Or.inr ?_⟩
      have := Except.ok.inj htok
      rw [← this]
      exact hbt st.tokenCtr
    · simp only [Bool.not_eq_true] at hhl
      simp only [hhl, Bool.false_eq_true, if_neg, ite_false]
      refine ⟨hInv, fun tok htok => Or.inl ?_⟩
      exact (Except.ok.inj htok).symm
  · rcases h : lookupUser st.db np with _ | uid
    · rcases he : env.userInsertErr st.resCtr with _ | e
      · simp only [h, he]
        have hh := resolveRecipStep_inv env cid
          { st with db := { st.db with
              users := st.db.users ++
                [{ phone := np, uid := st.db.nextUid,
                   country := (env.country np).getD "Unknown", status := "active" }],
              nextUid := st.db.nextUid + 1 } } st.db.nextUid hbt hInv
        exact ⟨hh.1, fun tok htok => Or.inr (hh.2 tok htok)⟩
      · simp only [h, he]
        exact ⟨hInv, fun tok htok => by cases htok⟩
    · simp only [h]
      have hh := resolveRecipStep_inv env cid st uid hbt hInv
      exact ⟨hh.1, fun tok htok => Or.inr (hh.2 tok htok)⟩

theorem resolveOne_inv (env : HookEnv) (cido : Option String) (hl : Bool)
    (st : RState) (p : String)
    (hbo : noBarS env.origin) (hbt : ∀ n, noBarS (env.tokenAt n)) (hInv : InvTok st.db) :
    InvTok ((resolveOne env cido hl st p).1).db ∧
    noBarS ((resolveOne env cido hl st p).2).link := by
  unfold resolveOne
  rcases h : resolveOneTry env cido hl st (env.normalize p) with ⟨st1, ex⟩
  have hh := resolveOneTry_inv env cido hl st (env.normalize p) hbt hInv
  rw [h] at hh
  cases ex with
  | error e =>
    simp only [h]
    exact ⟨hh.1, fun hm => absurd hm (List.not_mem_nil _)⟩
  | ok tok =>
    simp only [h]
    refine ⟨hh.1, ?_⟩
    by_cases hc : (hl && !(tok == "")) = true
    · simp only [hc, if_pos]
      have htok : noBarS tok := by
        rcases hh.2 tok rfl with h0 | h0
        · subst h0
          intro hm
          exact absurd hm (List.not_mem_nil _)
        · exact h0
      exact noBarS_append (noBarS_append hbo (by decide)) htok
    · simp only [Bool.not_eq_true] at hc
      simp only [hc]
      exact fun hm => absurd hm (List.not_mem_nil _)

theorem resolveBatch_inv (env : HookEnv) (cido : Option String) (hl : Bool)
    (hbo : noBarS env.origin) (hbt : ∀ n, noBarS (env.tokenAt n)) :
    ∀ (b : List String) (st : RState), InvTok st.db →
      InvTok ((resolveBatch env cido hl st b).1).db ∧
      ∀ o ∈ (resolveBatch env cido hl st b).2, noBarS o.link := by
  intro b
  induction b with
  | nil =>
    intro st h
    exact ⟨h, fun o ho => absurd ho (List.not_mem_nil _)⟩
  | cons p rest ih =>
    intro st h
    simp only [resolveBatch]
    have h1 := resolveOne_inv env cido hl st p hbo hbt h
    have h2 := ih (resolveOne env cido hl st p).1 h1.1
    refine ⟨h2.1, fun o ho => ?_⟩
    rcases List.mem_cons.mp ho with rfl | ho
    · exact h1.2
    · exact h2.2 o ho

/-! ## Outer-loop lemmas -/

theorem applyResp_db (bIdx : Nat) (io : InvokeOut) (st : RState) (res : Results) :
    ((applyResp bIdx io st res).1).db = st.db := by
  unfold applyResp
  rcases h : io.err with _ | e
  · by_cases hs : io.data.success = true <;> simp [h, hs]
  · simp [h]

theorem pb_map_batch (env : HookEnv) (cido : Option String) (hl : Bool)
    (msg snd : String) (tst : Bool) (total : Nat) :
    ∀ (bs : List (List String)) (bIdx : Nat) (acc : PAcc),
      ((processBatches env cido hl msg snd tst total bIdx acc bs).records).map (fun r => r.batch) =
        acc.records.map (fun r => r.batch) ++ bs := by
  intro bs
  induction bs with
  | nil => intro bIdx acc; simp [processBatches]
  | cons b rest ih =>
    intro bIdx acc
    simp only [processBatches]
    rw [ih]
    simp

theorem pb_progress (env : HookEnv) (cido : Option String) (hl : Bool)
    (msg snd : String) (tst : Bool) (total : Nat) :
    ∀ (bs : List (List String)) (bIdx : Nat) (acc : PAcc),
      (processBatches env cido hl msg snd tst total bIdx acc bs).progress =
        acc.progress ++
          (List.range bs.length).map (fun j => jsRound2 (90 * (bIdx + 1 + j)) total) := by
  intro bs
  induction bs with
  | nil => intro bIdx acc; simp [processBatches]
  | cons b rest ih =>
    intro bIdx acc
    simp only [processBatches]
    rw [ih]
    simp only [List.length_cons, List.range_succ_eq_map, List.map_cons, List.map_map,
      List.append_assoc, List.singleton_append]
    have hfg : ((fun j => jsRound2 (90 * (bIdx + 1 + j)) total) ∘ Nat.succ) =
        (fun j => jsRound2 (90 * (bIdx + 1 + 1 + j)) total) := by
      funext j
      simp only [Function.comp]
      congr 1
      omega
    rw [hfg]

theorem pb_logs (env : HookEnv) (cido : Option String) (hl : Bool)
    (msg snd : String) (tst : Bool) (total : Nat) :
    ∀ (bs : List (List String)) (bIdx : Nat) (acc : PAcc),
      ((processBatches env cido hl msg snd tst total bIdx acc bs).st).db.logs =
        acc.st.db.logs := by
  intro bs
  induction bs with
  | nil => intro bIdx acc; simp [processBatches]
  | cons b rest ih =>
    intro bIdx acc
    simp only [processBatches]
    rw [ih]
    show ((applyResp bIdx (env.gatewayResp bIdx)
      (resolveBatch env cido hl acc.st b).1 acc.res).1).db.logs = acc.st.db.logs
    rw [applyResp_db, resolveBatch_logs]

theorem pb_records_good (env : HookEnv) (cido : Option String) (hl : Bool)
    (msg snd : String) (tst : Bool) (total : Nat)
    (hbo : noBarS env.origin) (hbt : ∀ n, noBarS (env.tokenAt n)) :
    ∀ (bs : List (List String)) (bIdx : Nat) (acc : PAcc),
      InvTok acc.st.db → (∀ r ∈ acc.records, GoodRec env hl r) →
      ∀ r ∈ (processBatches env cido hl msg snd tst total bIdx acc bs).records,
        GoodRec env hl r := by
  intro bs
  induction bs with
  | nil =>
    intro bIdx acc _ hg
    simpa [processBatches] using hg
  | cons b rest ih =>
    intro bIdx acc hInv hg
    simp only [processBatches]
    apply ih
    · show InvTok ((applyResp bIdx (env.gatewayResp bIdx)
        (resolveBatch env cido hl acc.st b).1 acc.res).1).db
      rw [applyResp_db]
      exact (resolveBatch_inv env cido hl hbo hbt b acc.st hInv).1
    · intro r hr
      rcases List.mem_append.mp hr with hr | hr
      · exact hg r hr
      · rcases List.mem_singleton.mp hr with rfl
        refine ⟨rfl, resolveBatch_nphones env cido hl b acc.st, ?_,
          (resolveBatch_inv env cido hl hbo hbt b acc.st hInv).2⟩
        intro hhl
        simp [mkBatchCall, hhl]

/-! ## Shape of the personalized branch -/

theorem model_personalized_trace (env : HookEnv) (req : SMSReq) (db0 : DB)
    (h1 : req.recipients.isEmpty = false)
    (h2 : ((req.recipients.filter validRecipient).isEmpty) = false)
    (hbr : (req.campaignId.isNone && !(strContains req.message placeholderExact)) = false) :
    (sendSMSModel env req db0).trace.records = (personalRun env req db0).records ∧
    (sendSMSModel env req db0).trace.calls =
      ((personalRun env req db0).records).map (fun r => r.call) ∧
    (sendSMSModel env req db0).trace.progress =
      0 :: (personalRun env req db0).progress ++ [100] := by
  unfold sendSMSModel sendSMSBody personalRun
  simp [h1, h2, hbr]

theorem model_personalized_resp (env : HookEnv) (req : SMSReq) (db0 : DB)
    (h1 : req.recipients.isEmpty = false)
    (h2 : ((req.recipients.filter validRecipient).isEmpty) = false)
    (hbr : (req.campaignId.isNone && !(strContains req.message placeholderExact)) = false) :
    (sendSMSModel env req db0).resp =
      { success := !((personalRun env req db0).res.sentCount == 0),
        sentCount := some (personalRun env req db0).res.sentCount,
        totalRecipients := some (req.recipients.filter validRecipient).length,
        messageIds := some (personalRun env req db0).res.messageIds,
        cost := some (personalRun env req db0).res.cost,
        currency := some "EUR",
        invalidNumbers := some (personalRun env req db0).res.invalidNumbers,
        errors := some (personalRun env req db0).st.errors,
        error := if (personalRun env req db0).res.sentCount == 0
          then some ((personalRun env req db0).st.errors.headD
            "No messages were sent successfully")
          else none } := by
  unfold sendSMSModel sendSMSBody personalRun
  simp [h1, h2, hbr]

theorem model_personalized_db (env : HookEnv) (req : SMSReq) (db0 : DB)
    (h1 : req.recipients.isEmpty = false)
    (h2 : ((req.recipients.filter validRecipient).isEmpty) = false)
    (hbr : (req.campaignId.isNone && !(strContains req.message placeholderExact)) = false) :
    (sendSMSModel env req db0).trace.db =
      (if !((personalRun env req db0).res.sentCount == 0) &&
          decide (0 < (personalRun env req db0).res.sentCount) && !env.logInsertFails then
        { (personalRun env req db0).st.db with
          logs := (personalRun env req db0).st.db.logs ++ [hookLogRow req db0 env] }
      else (personalRun env req db0).st.db) := by
  unfold sendSMSModel sendSMSBody personalRun hookLogRow
  simp [h1, h2, hbr, personalRun]

/-! ## C1 -/

/-- C1: for a personalized send (the message contains the link placeholder)
with N valid recipients, the hook partitions the valid recipients into
batches of at most 100 (their concatenation is the full list), posts
exactly ceil(N / 100) gateway calls, and each call carries the resolved
recipients of its batch in order together with a param1 whose bar-separated
segments are exactly the per-recipient links of that batch, segment i
belonging to recipient i (both are the two projections of the same ordered
resolution list). -/
theorem C1_personalized_batching (env : HookEnv) (req : SMSReq) (db0 : DB)
    (h1 : req.recipients.isEmpty = false)
    (h2 : ((req.recipients.filter validRecipient).isEmpty) = false)
    (h3 : strContains req.message placeholderExact = true)
    (hbo : noBarS env.origin)
    (hbt : ∀ n, noBarS (env.tokenAt n))
    (hbd : InvTok db0) :
    ((sendSMSModel env req db0).trace.records).map (fun r => r.batch) =
        chunk100 (req.recipients.filter validRecipient) ∧
    ((sendSMSModel env req db0).trace.calls).length =
        ((req.recipients.filter validRecipient).length + 99) / 100 ∧
    (chunk100 (req.recipients.filter validRecipient)).flatten =
        req.recipients.filter validRecipient ∧
    (∀ b ∈ chunk100 (req.recipients.filter validRecipient), b ≠ [] ∧ b.length ≤ 100) ∧
    (∀ r ∈ (sendSMSModel env req db0).trace.records,
      r.call.recipients = r.outs.map (fun o => o.nphone) ∧
      r.outs.map (fun o => o.nphone) = r.batch.map env.normalize ∧
      r.call.param1 = some (joinLinks (r.outs.map (fun o => o.link))) ∧
      splitLinks (joinLinks (r.outs.map (fun o => o.link))) = r.outs.map (fun o => o.link) ∧
      (r.outs.map (fun o => o.link)).length = r.call.recipients.length) := by
  have hbr : (req.campaignId.isNone && !(strContains req.message placeholderExact)) = false := by
    rw [h3]
    simp
  obtain ⟨hrec, hcall, _⟩ := model_personalized_trace env req db0 h1 h2 hbr
  have hmap : ((personalRun env req db0).records).map (fun r => r.batch) =
      chunk100 (req.recipients.filter validRecipient) := by
    unfold personalRun
    rw [pb_map_batch]
    simp
  have hlen : ((personalRun env req db0).records).length =
      (chunk100 (req.recipients.filter validRecipient)).length := by
    have := congrArg List.length hmap
    simpa using this
  have hgood : ∀ r ∈ (personalRun env req db0).records,
      GoodRec env (strContains req.message placeholderExact) r := by
    intro r hr
    unfold personalRun at hr
    exact pb_records_good env req.campaignId (strContains req.message placeholderExact)
      req.message (req.sender.getD "BulkComm") req.test
      (chunk100 (req.recipients.filter validRecipient)).length hbo hbt
      (chunk100 (req.recipients.filter validRecipient)) 0 _ hbd
      (fun r hr => absurd hr (List.not_mem_nil r)) r hr
  refine ⟨by rw [hrec]; exact hmap, ?_, chunk100_flatten _, chunk100_mem _, ?_⟩
  · rw [hcall]
    simp only [List.length_map]
    rw [hlen, chunk100_length]
  · intro r hr
    rw [hrec] at hr
    obtain ⟨gA, gB, gP, gL⟩ := hgood r hr
    have hbmem : r.batch ∈ chunk100 (req.recipients.filter validRecipient) := by
      rw [← hmap]
      exact List.mem_map_of_mem (fun r => r.batch) hr
    have hbne : r.batch ≠ [] := (chunk100_mem _ r.batch hbmem).1
    have houtne : r.outs ≠ [] := by
      intro e
      rw [e] at gB
      have := gB.symm
      simp only [List.map_nil] at this
      exact hbne (List.map_eq_nil_iff.mp this)
    have hlinksne : r.outs.map (fun o => o.link) ≠ [] := by
      intro e
      exact houtne (List.map_eq_nil_iff.mp e)
    have hsplit : splitLinks (joinLinks (r.outs.map (fun o => o.link))) =
        r.outs.map (fun o => o.link) := by
      apply splitLinks_joinLinks _ hlinksne
      intro sLnk hs
      rcases List.mem_map.mp hs with ⟨o, ho, rfl⟩
      exact gL o ho
    refine ⟨gA, gB, gP h3, hsplit, ?_⟩
    rw [gA]
    simp

/-- Witness for C1 at a concrete two-recipient personalized request. -/
theorem C1_personalized_batching_witness :
    strContains (reqOf ["a", "b"] msgLink none false).message placeholderExact = true ∧
    ((sendSMSModel envOk (reqOf ["a", "b"] msgLink none false) dbEmpty).trace.calls).length = 1 ∧
    ((sendSMSModel envOk (reqOf ["a", "b"] msgLink none false) dbEmpty).trace.records).map
      (fun r => r.batch) = [["a", "b"]] := by
  have h := C1_personalized_batching envOk (reqOf ["a", "b"] msgLink none false) dbEmpty
    (by decide) (by decide) (by decide) (by decide)
    (fun n => show noBarS "T" by decide)
    (fun r hr => absurd hr (List.not_mem_nil r))
  exact ⟨by decide, h.2.1.trans (by decide), h.1.trans (by decide)⟩

/-! ## C8 -/

theorem jsRound2_le90 (k t : Nat) (hk : k ≤ t) (ht : 0 < t) : jsRound2 (90 * k) t ≤ 90 := by
  unfold jsRound2
  have h2t : 0 < 2 * t := by omega
  have := (Nat.div_lt_iff_lt_mul h2t).mpr (show 2 * (90 * k) + t < 91 * (2 * t) by omega)
  omega

/-- C8 (amended): in the personalized flow the progress reported after
batch k is round(90 * k / totalBatches) (which never exceeds 90), starting
from 0 and set to 100 after all batches; the claimed formula
min(round(100 * k / totalBatches), 90) does not match the code. -/
theorem C8_progress_amended (env : HookEnv) (req : SMSReq) (db0 : DB)
    (h1 : req.recipients.isEmpty = false)
    (h2 : ((req.recipients.filter validRecipient).isEmpty) = false)
    (hbr : (req.campaignId.isNone && !(strContains req.message placeholderExact)) = false) :
    (sendSMSModel env req db0).trace.progress =
      0 :: ((List.range (chunk100 (req.recipients.filter validRecipient)).length).map
        (fun j => jsRound2 (90 * (j + 1))
          (chunk100 (req.recipients.filter validRecipient)).length)) ++ [100] ∧
    ∀ j, j + 1 ≤ (chunk100 (req.recipients.filter validRecipient)).length →
      jsRound2 (90 * (j + 1)) (chunk100 (req.recipients.filter validRecipient)).length ≤ 90 := by
  obtain ⟨_, _, hprog⟩ := model_personalized_trace env req db0 h1 h2 hbr
  constructor
  · rw [hprog]
    unfold personalRun
    rw [pb_progress]
    have hfg : (fun j => jsRound2 (90 * (0 + 1 + j))
          (chunk100 (req.recipients.filter validRecipient)).length) =
        (fun j => jsRound2 (90 * (j + 1))
          (chunk100 (req.recipients.filter validRecipient)).length) := by
      funext j
      congr 1
      omega
    rw [hfg]
    simp
  · intro j hj
    exact jsRound2_le90 (j + 1) _ hj (by omega)

/-- C8 counterexample: with 101 valid recipients there are two batches; the
progress reported after the first batch is round(90 * 1 / 2) = 45, while
the claim requires min(round(100 * 1 / 2), 90) = 50. -/
theorem C8_counterexample :
    (sendSMSModel envOk (reqOf (List.replicate 101 "p") msgLink none false)
      dbEmpty).trace.progress = [0, 45, 90, 100] ∧
    min (jsRound2 (100 * 1) 2) 90 = 50 ∧ (45 : Nat) ≠ 50 :=
  ⟨by decide, by decide, by decide⟩

/-- Witness for the amended C8 at one batch. -/
theorem C8_progress_amended_witness :
    (sendSMSModel envOk (reqOf ["a"] msgLink none false) dbEmpty).trace.progress =
      [0, 90, 100] := by
  have h := (C8_progress_amended envOk (reqOf ["a"] msgLink none false) dbEmpty
    (by decide) (by decide) (by decide)).1
  exact h.trans (by decide)

/-! ## C2 -/

/-- C2 (amended): after a personalized run the result is a failure exactly
when the accumulated sentCount is 0, and the surfaced error is then the
first recorded error of any kind, per-recipient resolution errors included
(not necessarily a per-batch error), or a generic message when none was
recorded; when sentCount is positive the result is a success with no
error field. -/
theorem C2_success_iff_sent (env : HookEnv) (req : SMSReq) (db0 : DB)
    (h1 : req.recipients.isEmpty = false)
    (h2 : ((req.recipients.filter validRecipient).isEmpty) = false)
    (hbr : (req.campaignId.isNone && !(strContains req.message placeholderExact)) = false) :
    ∃ n, (sendSMSModel env req db0).resp.sentCount = some n ∧
      ((sendSMSModel env req db0).resp.success = true ↔ 0 < n) ∧
      (n = 0 → (sendSMSModel env req db0).resp.error =
        some (((sendSMSModel env req db0).resp.errors.getD []).headD
          "No messages were sent successfully")) ∧
      (0 < n → (sendSMSModel env req db0).resp.error = none) := by
  have hresp := model_personalized_resp env req db0 h1 h2 hbr
  refine ⟨(personalRun env req db0).res.sentCount, by rw [hresp], ?_, ?_, ?_⟩
  · rw [hresp]
    simp [Nat.pos_iff_ne_zero]
  · intro hn
    rw [hresp]
    simp [hn]
  · intro hn
    have hne : ¬((personalRun env req db0).res.sentCount = 0) := by omega
    rw [hresp]
    simp [hne]

/-- C2 counterexample: one recipient whose user insert fails, one batch
whose gateway call fails; nothing is sent and the surfaced error is the
per-recipient resolution error, not the first (and only) per-batch
error. -/
theorem C2_counterexample :
    (sendSMSModel envC2x (reqOf ["p"] "hello" (some "c1") false) dbEmpty).resp.sentCount =
      some 0 ∧
    (sendSMSModel envC2x (reqOf ["p"] "hello" (some "c1") false) dbEmpty).resp.success =
      false ∧
    (sendSMSModel envC2x (reqOf ["p"] "hello" (some "c1") false) dbEmpty).resp.errors =
      some ["p: DBFail", "Batch 1: GWFail"] ∧
    (sendSMSModel envC2x (reqOf ["p"] "hello" (some "c1") false) dbEmpty).resp.error =
      some "p: DBFail" ∧
    ("p: DBFail" : String) ≠ "Batch 1: GWFail" :=
  ⟨by decide, by decide, by decide, by decide, by decide⟩

/-- Witness for the amended C2 at a successful concrete run. -/
theorem C2_success_iff_sent_witness :
    (sendSMSModel envOk (reqOf ["w"] msgLink none false) dbEmpty).resp.success = true := by
  obtain ⟨n, hn, hiff, _, _⟩ := C2_success_iff_sent envOk (reqOf ["w"] msgLink none false)
    dbEmpty (by decide) (by decide) (by decide)
  have hv : (sendSMSModel envOk (reqOf ["w"] msgLink none false) dbEmpty).resp.sentCount =
      some 1 := by decide
  rw [hn] at hv
  have hn1 : n = 1 := Option.some.inj hv
  subst hn1
  exact hiff.mpr (by omega)

/-! ## C3 -/

/-- C3 (amended): after a personalized run, exactly one BulkMessageLog row
summarizing the whole invocation is appended when the accumulated
sentCount is positive, and none otherwise, regardless of the test flag:
the audit write of the hook has no test guard (the row is written by the
hook once per invocation, not per batch). -/
theorem C3_logging_amended (env : HookEnv) (req : SMSReq) (db0 : DB)
    (h1 : req.recipients.isEmpty = false)
    (h2 : ((req.recipients.filter validRecipient).isEmpty) = false)
    (hbr : (req.campaignId.isNone && !(strContains req.message placeholderExact)) = false)
    (hlog : env.logInsertFails = false) :
    ∃ n, (sendSMSModel env req db0).resp.sentCount = some n ∧
      (sendSMSModel env req db0).trace.db.logs =
        db0.logs ++ (if 0 < n then [hookLogRow req db0 env] else []) := by
  have hdb := model_personalized_db env req db0 h1 h2 hbr
  have hresp := model_personalized_resp env req db0 h1 h2 hbr
  refine ⟨(personalRun env req db0).res.sentCount, by rw [hresp], ?_⟩
  have hlogs : ((personalRun env req db0).st).db.logs = db0.logs := by
    unfold personalRun
    rw [pb_logs]
  rw [hdb]
  by_cases hn : 0 < (personalRun env req db0).res.sentCount
  · have hne : ¬((personalRun env req db0).res.sentCount = 0) := by omega
    simp [hn, hne, hlog, hlogs]
  · have he : (personalRun env req db0).res.sentCount = 0 := by omega
    simp [he, hlogs]

/-- C3 counterexample: a test invocation that succeeds writes a
BulkMessageLog row. -/
theorem C3_counterexample :
    (reqOf ["p"] msgLink none true).test = true ∧
    (sendSMSModel envOk (reqOf ["p"] msgLink none true) dbEmpty).resp.success = true ∧
    ((sendSMSModel envOk (reqOf ["p"] msgLink none true) dbEmpty).trace.db.logs).length = 1 :=
  ⟨rfl, by decide, by decide⟩

/-- Witness for the amended C3 at a concrete test-mode run. -/
theorem C3_logging_amended_witness :
    (sendSMSModel envOk (reqOf ["q"] msgLink none true) dbEmpty).trace.db.logs =
      dbEmpty.logs ++ [hookLogRow (reqOf ["q"] msgLink none true) dbEmpty envOk] := by
  obtain ⟨n, hn, hl⟩ := C3_logging_amended envOk (reqOf ["q"] msgLink none true) dbEmpty
    (by decide) (by decide) (by decide) rfl
  have hv : (sendSMSModel envOk (reqOf ["q"] msgLink none true) dbEmpty).resp.sentCount =
      some 1 := by decide
  rw [hn] at hv
  have hn1 : n = 1 := Option.some.inj hv
  subst hn1
  simpa using hl

/-! ## C4 -/

theorem model_plain_calls (env : HookEnv) (req : SMSReq) (db0 : DB)
    (h1 : req.recipients.isEmpty = false)
    (h2 : ((req.recipients.filter validRecipient).isEmpty) = false)
    (hbr : (req.campaignId.isNone && !(strContains req.message placeholderExact)) = true) :
    (sendSMSModel env req db0).trace.calls =
      [{ recipients := req.recipients.filter validRecipient, message := jsTrim req.message,
         sender := req.sender.getD "BulkComm", test := req.test, param1 := none }] := by
  unfold sendSMSModel sendSMSBody
  rcases h : (env.gatewayResp 0).err with _ | e <;> simp [h1, h2, hbr, h]

/-- C4 (amended): placeholder detection is an exact substring test for the
one-space form; a message containing exactly the one-space placeholder is
personalized and its placeholder becomes the positional marker, while the
no-space and two-space variants are not detected and their messages reach
the gateway unmodified; once a message is detected, the replacement regex
itself is whitespace tolerant and also rewrites the other variants inside
that message. -/
theorem C4_placeholder_amended (env : HookEnv) (db0 : DB) (phone : String)
    (hv : validRecipient phone = true) :
    ((sendSMSModel env (reqOf [phone] msgLink none false) db0).trace.calls).map
        (fun c => c.message) = [jsTrim (replacePh msgLink)] ∧
    replacePh msgLink = "Visit [%1%]" ∧
    ((sendSMSModel env (reqOf [phone] msgTight none false) db0).trace.calls).map
        (fun c => c.message) = [jsTrim msgTight] ∧
    ((sendSMSModel env (reqOf [phone] msgWide none false) db0).trace.calls).map
        (fun c => c.message) = [jsTrim msgWide] ∧
    replacePh "Go {{ link }} or {{link}}" = "Go [%1%] or [%1%]" := by
  have h1 : (reqOf [phone] msgLink none false).recipients.isEmpty = false := rfl
  have h2 : (((reqOf [phone] msgLink none false).recipients.filter validRecipient).isEmpty)
      = false := by
    simp [reqOf, List.filter_cons, hv]
  have hfil : (reqOf [phone] msgLink none false).recipients.filter validRecipient = [phone] := by
    simp [reqOf, List.filter_cons, hv]
  refine ⟨?_, by decide, ?_, ?_, by decide⟩
  · have hbr : ((reqOf [phone] msgLink none false).campaignId.isNone &&
        !(strContains (reqOf [phone] msgLink none false).message placeholderExact)) = false := by
      show ((none : Option String).isNone && !(strContains msgLink placeholderExact)) = false
      decide
    obtain ⟨_, hcall, _⟩ := model_personalized_trace env (reqOf [phone] msgLink none false)
      db0 h1 h2 hbr
    rw [hcall]
    unfold personalRun
    rw [hfil]
    rw [show chunk100 [phone] = [[phone]] from rfl]
    simp only [processBatches, List.nil_append, List.map_cons, List.map_nil]
    have hsc : strContains (reqOf [phone] msgLink none false).message placeholderExact
        = true := by
      show strContains msgLink placeholderExact = true
      decide
    simp [mkBatchCall, hsc, reqOf]
    simp [show strContains msgLink placeholderExact = true from by decide]
  · have h1t : (reqOf [phone] msgTight none false).recipients.isEmpty = false := rfl
    have h2t : (((reqOf [phone] msgTight none false).recipients.filter validRecipient).isEmpty)
        = false := by
      simp [reqOf, List.filter_cons, hv]
    have hbrt : ((reqOf [phone] msgTight none false).campaignId.isNone &&
        !(strContains (reqOf [phone] msgTight none false).message placeholderExact)) = true := by
      show ((none : Option String).isNone && !(strContains msgTight placeholderExact)) = true
      decide
    rw [model_plain_calls env (reqOf [phone] msgTight none false) db0 h1t h2t hbrt]
    rfl
  · have h1w : (reqOf [phone] msgWide none false).recipients.isEmpty = false := rfl
    have h2w : (((reqOf [phone] msgWide none false).recipients.filter validRecipient).isEmpty)
        = false := by
      simp [reqOf, List.filter_cons, hv]
    have hbrw : ((reqOf [phone] msgWide none false).campaignId.isNone &&
        !(strContains (reqOf [phone] msgWide none false).message placeholderExact)) = true := by
      show ((none : Option String).isNone && !(strContains msgWide placeholderExact)) = true
      decide
    rw [model_plain_calls env (reqOf [phone] msgWide none false) db0 h1w h2w hbrw]
    rfl

/-- C4 counterexample: the three spec message forms do not produce an
identical substitution: the no-space and two-space variants are sent
verbatim while the one-space variant is substituted. -/
theorem C4_counterexample :
    ((sendSMSModel envOk (reqOf ["p"] msgTight none false) dbEmpty).trace.calls).map
      (fun c => c.message) = ["Visit {{link}}"] ∧
    ((sendSMSModel envOk (reqOf ["p"] msgLink none false) dbEmpty).trace.calls).map
      (fun c => c.message) = ["Visit [%1%]"] ∧
    ((sendSMSModel envOk (reqOf ["p"] msgWide none false) dbEmpty).trace.calls).map
      (fun c => c.message) = ["Visit {{  link  }}"] ∧
    ("Visit {{link}}" : String) ≠ "Visit [%1%]" :=
  ⟨by decide, by decide, by decide, by decide⟩

/-- Witness for the amended C4 at a concrete recipient. -/
theorem C4_placeholder_amended_witness :
    ((sendSMSModel envOk (reqOf ["z"] msgLink none false) dbEmpty).trace.calls).map
      (fun c => c.message) = ["Visit [%1%]"] := by
  have h := C4_placeholder_amended envOk dbEmpty "z" (by decide)
  exact h.1.trans (by decide)

/-! ## List find helpers -/

theorem find?_append_none {A : Type} (p : A → Bool) (l1 l2 : List A)
    (h : l1.find? p = none) : (l1 ++ l2).find? p = l2.find? p := by
  induction l1 with
  | nil => rfl
  | cons a t ih =>
    cases hp : p a with
    | true =>
      rw [List.find?_cons_of_pos _ hp] at h
      cases h
    | false =>
      rw [List.find?_cons_of_neg _ (by simp [hp])] at h
      rw [List.cons_append, List.find?_cons_of_neg _ (by simp [hp])]
      exact ih h

theorem find?_map_comm {A : Type} (f : A → A) (p : A → Bool) (hf : ∀ a, p (f a) = p a) :
    ∀ l : List A, (l.map f).find? p = (l.find? p).map f := by
  intro l
  induction l with
  | nil => rfl
  | cons a t ih =>
    cases hp : p a with
    | true =>
      rw [List.map_cons, List.find?_cons_of_pos _ (by rw [hf a, hp]),
        List.find?_cons_of_pos _ hp, Option.map_some']
    | false =>
      rw [List.map_cons, List.find?_cons_of_neg _ (by simp [hf a, hp]),
        List.find?_cons_of_neg _ (by simp [hp]), ih]

theorem map_fixed {A : Type} (f : A → A) :
    ∀ l : List A, (∀ a ∈ l, f a = a) → l.map f = l := by
  intro l
  induction l with
  | nil => intro _; rfl
  | cons a t ih =>
    intro h
    rw [List.map_cons, h a (by simp), ih (fun x hx => h x (by simp [hx]))]

/-- The status update of resolveRecipStep does not change which rows match
the (campaign, user) predicate. -/
theorem updP (cid : String) (uid : Nat) (r : RecipRow) :
    (((if r.cid == cid && r.uid == uid then { r with status := "sent" } else r) : RecipRow).cid
        == cid &&
      ((if r.cid == cid && r.uid == uid then { r with status := "sent" } else r) : RecipRow).uid
        == uid) = (r.cid == cid && r.uid == uid) := by
  by_cases hp : (r.cid == cid && r.uid == uid) = true
  · simp [hp]
  · simp only [Bool.not_eq_true] at hp
    simp [hp]

/-! ## C5 -/

theorem upd_token (cid : String) (uid : Nat) (r : RecipRow) :
    ((if r.cid == cid && r.uid == uid then { r with status := "sent" } else r) : RecipRow).token
      = r.token := by
  by_cases hp : (r.cid == cid && r.uid == uid) = true
  · simp [hp]
  · simp only [Bool.not_eq_true] at hp
    simp [hp]

theorem upd_upd (cid : String) (uid : Nat) :
    ((fun r : RecipRow =>
        if r.cid == cid && r.uid == uid then { r with status := "sent" } else r) ∘
      (fun r : RecipRow =>
        if r.cid == cid && r.uid == uid then { r with status := "sent" } else r)) =
    (fun r : RecipRow =>
      if r.cid == cid && r.uid == uid then { r with status := "sent" } else r) := by
  funext r
  simp only [Function.comp]
  by_cases hp : (r.cid == cid && r.uid == uid) = true
  · simp [hp]
  · simp only [Bool.not_eq_true] at hp
    simp [hp]

theorem lookupUser_ext (db db' : DB) (np : String) (h : db.users = db'.users) :
    lookupUser db np = lookupUser db' np := by
  unfold lookupUser
  rw [h]

/-- Find-or-create of a campaign recipient succeeds in a failure-free
environment, and re-running it from the resulting store returns the same
token and leaves the rows unchanged. -/
theorem resolveRecipStep_idem (env : HookEnv) (cid : String) (stA : RState) (uid : Nat)
    (hr : ∀ n, env.recipInsertErr n = none) :
    ∃ st1 tok, resolveRecipStep env cid stA uid = (st1, Except.ok tok) ∧
      ∀ st2 : RState, st2.db = st1.db →
        ∃ st3, resolveRecipStep env cid st2 uid = (st3, Except.ok tok) ∧
          st3.db.recips = st1.db.recips ∧ st3.db.users = st1.db.users := by
  unfold resolveRecipStep
  rcases h2 : lookupRecip stA.db cid uid with _ | tok
  · have hfind : stA.db.recips.find? (fun r => r.cid == cid && r.uid == uid) = none := by
      unfold lookupRecip at h2
      exact Option.map_eq_none'.mp h2
    simp only [hr stA.resCtr]
    refine ⟨_, env.tokenAt stA.tokenCtr, rfl, ?_⟩
    intro st2 hdb
    have hrecs2 : st2.db.recips = stA.db.recips ++
        [{ cid := cid, uid := uid, status := "sent", token := env.tokenAt stA.tokenCtr }] := by
      rw [hdb]
    have hlr2 : lookupRecip st2.db cid uid = some (env.tokenAt stA.tokenCtr) := by
      unfold lookupRecip
      rw [hrecs2, find?_append_none _ _ _ hfind,
        List.find?_cons_of_pos _ (by simp)]
      rfl
    simp only [hlr2]
    refine ⟨_, rfl, ?_, by rw [hdb]⟩
    show st2.db.recips.map _ = _
    rw [hrecs2]
    apply map_fixed
    intro a ha
    rcases List.mem_append.mp ha with ha | ha
    · have hnp : ¬((a.cid == cid && a.uid == uid) = true) :=
        List.find?_eq_none.mp hfind a ha
      simp [hnp]
    · rcases List.mem_singleton.mp ha with rfl
      simp
  · have hfind : ∃ r0, stA.db.recips.find? (fun r => r.cid == cid && r.uid == uid) = some r0 ∧
        r0.token = tok := by
      unfold lookupRecip at h2
      rcases Option.map_eq_some'.mp h2 with ⟨r0, hr0, ht0⟩
      exact ⟨r0, hr0, ht0⟩
    simp only [h2]
    refine ⟨_, tok, rfl, ?_⟩
    intro st2 hdb
    rcases hfind with ⟨r0, hr0, ht0⟩
    have hrecs2 : st2.db.recips = stA.db.recips.map
        (fun r => if r.cid == cid && r.uid == uid then { r with status := "sent" } else r) := by
      rw [hdb]
    have hlr2 : lookupRecip st2.db cid uid = some tok := by
      unfold lookupRecip
      rw [hrecs2, find?_map_comm _ _ (updP cid uid), hr0, Option.map_some', Option.map_some']
      rw [upd_token cid uid r0, ht0]
    simp only [hlr2]
    refine ⟨_, rfl, ?_, by rw [hdb]⟩
    show st2.db.recips.map _ = _
    rw [hrecs2, List.map_map, upd_upd cid uid]

/-- One campaign resolution succeeds (in a failure-free environment) with
some token, and re-running it from the resulting store returns the same
token and leaves users and campaign recipients unchanged. -/
theorem resolveOneTry_idem (env : HookEnv) (cid : String) (hl : Bool) (st : RState)
    (np : String)
    (hu : ∀ n, env.userInsertErr n = none) (hr : ∀ n, env.recipInsertErr n = none) :
    ∃ st1 tok, resolveOneTry env (some cid) hl st np = (st1, Except.ok tok) ∧
      ∀ st2 : RState, st2.db = st1.db →
        ∃ st3, resolveOneTry env (some cid) hl st2 np = (st3, Except.ok tok) ∧
          st3.db.recips = st1.db.recips ∧ st3.db.users = st1.db.users := by
  unfold resolveOneTry
  rcases h1 : lookupUser st.db np with _ | uid
  · have hufind : st.db.users.find? (fun u => u.phone == np) = none := by
      unfold lookupUser at h1
      exact Option.map_eq_none'.mp h1
    simp only [h1, hu st.resCtr]
    obtain ⟨st1, tok, hstep, hrep⟩ := resolveRecipStep_idem env cid
      { st with db := { st.db with
          users := st.db.users ++
            [{ phone := np, uid := st.db.nextUid,
               country := (env.country np).getD "Unknown", status := "active" }],
          nextUid := st.db.nextUid + 1 } } st.db.nextUid hr
    refine ⟨st1, tok, hstep, ?_⟩
    intro st2 hdb
    have hus1 : st1.db.users = st.db.users ++
        [{ phone := np, uid := st.db.nextUid,
           country := (env.country np).getD "Unknown", status := "active" }] := by
      have hx := resolveRecipStep_users env cid
        { st with db := { st.db with
            users := st.db.users ++
              [{ phone := np, uid := st.db.nextUid,
                 country := (env.country np).getD "Unknown", status := "active" }],
            nextUid := st.db.nextUid + 1 } } st.db.nextUid
      rw [hstep] at hx
      exact hx
    have hlu2 : lookupUser st2.db np = some st.db.nextUid := by
      unfold lookupUser
      rw [hdb, hus1, find?_append_none _ _ _ hufind,
        List.find?_cons_of_pos _ (by simp)]
      rfl
    simp only [hlu2]
    exact hrep st2 hdb
  · simp only [h1]
    obtain ⟨st1, tok, hstep, hrep⟩ := resolveRecipStep_idem env cid st uid hr
    refine ⟨st1, tok, hstep, ?_⟩
    intro st2 hdb
    have hus1 : st1.db.users = st.db.users := by
      have hx := resolveRecipStep_users env cid st uid
      rw [hstep] at hx
      exact hx
    have hlu2 : lookupUser st2.db np = some uid := by
      rw [lookupUser_ext st2.db st.db np (by rw [hdb, hus1])]
      exact h1
    simp only [hlu2]
    exact hrep st2 hdb

/-- C5: recipient and token resolution is idempotent: resolving the same
(campaign, phone) pair twice (with the store operations succeeding)
returns the identical unique token both times, neither resolution fails,
and the second resolution changes neither the campaign_recipients rows nor
the users rows, so no duplicate CampaignRecipient row is created and a
(campaign_id, user_id) pair keeps a single token. -/
theorem C5_token_idempotent (env : HookEnv) (st : RState) (phone cid : String) (hl : Bool)
    (hu : ∀ n, env.userInsertErr n = none) (hr : ∀ n, env.recipInsertErr n = none) :
    ((resolveOne env (some cid) hl ((resolveOne env (some cid) hl st phone).1) phone).2).token =
      ((resolveOne env (some cid) hl st phone).2).token ∧
    ((resolveOne env (some cid) hl ((resolveOne env (some cid) hl st phone).1) phone).1).db.recips
      = ((resolveOne env (some cid) hl st phone).1).db.recips ∧
    ((resolveOne env (some cid) hl ((resolveOne env (some cid) hl st phone).1) phone).1).db.users
      = ((resolveOne env (some cid) hl st phone).1).db.users ∧
    ((resolveOne env (some cid) hl st phone).2).failed = none ∧
    ((resolveOne env (some cid) hl ((resolveOne env (some cid) hl st phone).1) phone).2).failed
      = none := by
  obtain ⟨st1, tok, h1, hrep⟩ :=
    resolveOneTry_idem env cid hl st (env.normalize phone) hu hr
  have e1 : resolveOne env (some cid) hl st phone =
      ({ st1 with resCtr := st1.resCtr + 1 },
       { nphone := env.normalize phone,
         link := if hl && !(tok == "") then env.origin ++ "/" ++ tok else "",
         token := tok, failed := none }) := by
    unfold resolveOne
    simp only [h1]
  obtain ⟨st3, h2, hrec, hus⟩ := hrep { st1 with resCtr := st1.resCtr + 1 } rfl
  have e2 : resolveOne env (some cid) hl { st1 with resCtr := st1.resCtr + 1 } phone =
      ({ st3 with resCtr := st3.resCtr + 1 },
       { nphone := env.normalize phone,
         link := if hl && !(tok == "") then env.origin ++ "/" ++ tok else "",
         token := tok, failed := none }) := by
    unfold resolveOne
    simp only [h2]
  rw [e1]
  rw [e2]
  exact ⟨rfl, hrec, hus, rfl, rfl⟩

/-- Witness for C5 at a concrete empty store. -/
theorem C5_token_idempotent_witness :
    ((resolveOne envOk (some "c1") true ((resolveOne envOk (some "c1") true st0 "p").1)
        "p").2).token = ((resolveOne envOk (some "c1") true st0 "p").2).token ∧
    ((resolveOne envOk (some "c1") true ((resolveOne envOk (some "c1") true st0 "p").1)
        "p").1).db.recips = ((resolveOne envOk (some "c1") true st0 "p").1).db.recips ∧
    ((resolveOne envOk (some "c1") true st0 "p").2).token = "T" ∧
    (((resolveOne envOk (some "c1") true st0 "p").1).db.recips).length = 1 := by
  have h := C5_token_idempotent envOk st0 "p" "c1" true (fun n => rfl) (fun n => rfl)
  exact ⟨h.1, h.2.1, by decide, by decide⟩

/-! ## C6 -/

/-- C6: a persistence failure during resolution (here: the user insert of
a previously unseen phone) is recorded as a per-recipient error string,
the store is left unchanged, and the recipient is still pushed to the
batch with an empty personalization link; moreover the inner loop never
aborts a batch: the resolved outputs always carry every recipient of the
batch, normalized, in order. -/
theorem C6_persistence_failure_degrades (env : HookEnv) :
    (∀ (cid : String) (hl : Bool) (st : RState) (phone m : String),
      env.userInsertErr st.resCtr = some m →
      lookupUser st.db (env.normalize phone) = none →
      resolveOne env (some cid) hl st phone =
        ({ st with
            resCtr := st.resCtr + 1,
            errors := st.errors ++ [env.normalize phone ++ ": " ++ m] },
         { nphone := env.normalize phone, link := "", token := "", failed := some m })) ∧
    (∀ (cido : Option String) (hl : Bool) (st : RState) (b : List String),
      ((resolveBatch env cido hl st b).2).map (fun o => o.nphone) = b.map env.normalize) := by
  constructor
  · intro cid hl st phone m hm hlu
    unfold resolveOne resolveOneTry
    simp only [hlu, hm]
  · intro cido hl st b
    exact resolveBatch_nphones env cido hl b st

/-- Witness for C6: a failing insert for the first recipient, and a
two-recipient batch that is still fully resolved. -/
theorem C6_persistence_failure_degrades_witness :
    resolveOne envC2x (some "c1") true st0 "p" =
      ({ st0 with resCtr := 1, errors := ["p: DBFail"] },
       { nphone := "p", link := "", token := "", failed := some "DBFail" }) ∧
    ((resolveBatch envC2x (some "c1") true st0 ["p", "q"]).2).map (fun o => o.nphone) =
      ["p", "q"] := by
  have h := C6_persistence_failure_degrades envC2x
  exact ⟨h.1 "c1" true st0 "p" "DBFail" rfl rfl,
    (h.2 (some "c1") true st0 ["p", "q"]).trans (by decide)⟩

/-! ## C7 -/

/-- C7 counterexample: when the user lookup finds nothing and the insert
then fails with a uniqueness violation (the row having been created
concurrently), the resolver does not read the existing row and continue
with its token; it records the violation as a fatal per-recipient error
and degrades the recipient to an empty token and link. -/
theorem C7_counterexample :
    ((resolveOne envC7u (some "c1") true st0 "p").2).token = "" ∧
    ((resolveOne envC7u (some "c1") true st0 "p").2).link = "" ∧
    ((resolveOne envC7u (some "c1") true st0 "p").2).failed = some uniqViolationMsg ∧
    ((resolveOne envC7u (some "c1") true st0 "p").1).errors =
      ["p: " ++ uniqViolationMsg] ∧
    ((resolveOne envC7u (some "c1") true st0 "p").1).db.recips = [] ∧
    ((resolveOne envC7u (some "c1") true st0 "p").1).db.users = [] :=
  ⟨by decide, by decide, by decide, by decide, by decide, by decide⟩

/-- C7 (amended): an insert failure - a uniqueness violation included - is
treated as a thrown error for that recipient: the user-insert case leaves
the store unchanged and the campaign-recipient-insert case leaves the
recipient rows unchanged; in both cases the recipient is degraded to an
empty link with the error recorded, and no fallback read of the existing
row happens (the returned token is empty, not the stored one). -/
theorem C7_insert_failure_amended (env : HookEnv) (cid : String) (hl : Bool) (st : RState)
    (phone m : String) :
    (env.userInsertErr st.resCtr = some m →
      lookupUser st.db (env.normalize phone) = none →
      ((resolveOne env (some cid) hl st phone).2).failed = some m ∧
      ((resolveOne env (some cid) hl st phone).2).link = "" ∧
      ((resolveOne env (some cid) hl st phone).2).token = "" ∧
      ((resolveOne env (some cid) hl st phone).1).db = st.db) ∧
    (∀ uid, env.recipInsertErr st.resCtr = some m →
      lookupUser st.db (env.normalize phone) = some uid →
      lookupRecip st.db cid uid = none →
      ((resolveOne env (some cid) hl st phone).2).failed = some m ∧
      ((resolveOne env (some cid) hl st phone).2).link = "" ∧
      ((resolveOne env (some cid) hl st phone).2).token = "" ∧
      ((resolveOne env (some cid) hl st phone).1).db.recips = st.db.recips) := by
  constructor
  · intro hm hlu
    unfold resolveOne resolveOneTry
    simp only [hlu, hm]
    simp
  · intro uid hm hlu hlr
    unfold resolveOne resolveOneTry resolveRecipStep
    simp only [hlu, hlr, hm]
    simp

/-- Witness for the amended C7: the user-insert case at the uniqueness
violation, and the recipient-insert case over a store already holding the
user row. -/
theorem C7_insert_failure_amended_witness :
    (((resolveOne envC7u (some "c1") true st0 "p").2).failed = some uniqViolationMsg ∧
      ((resolveOne envC7u (some "c1") true st0 "p").1).db = st0.db) ∧
    (((resolveOne envC7r (some "c1") true { st0 with db := dbU } "p").2).failed =
        some uniqViolationMsg ∧
      ((resolveOne envC7r (some "c1") true { st0 with db := dbU } "p").1).db.recips =
        dbU.recips) := by
  have h1 := (C7_insert_failure_amended envC7u "c1" true st0 "p" uniqViolationMsg).1 rfl rfl
  have h2 := (C7_insert_failure_amended envC7r "c1" true { st0 with db := dbU } "p"
    uniqViolationMsg).2 7 rfl (by decide) (by decide)
  exact ⟨⟨h1.1, h1.2.2.2⟩, ⟨h2.1, h2.2.2.2⟩⟩

/-! ## C9 -/

/-- C9 (amended): when the provider auth token is absent (and validation
and the other configuration pass, with no campaign), the edge handler
fails hard with a 500 and the token message, and no provider request is
made; the check sits after recipient bookkeeping, so database writes may
already have happened by then (see the counterexample). -/
theorem C9_token_check_amended (env : EdgeEnv) (req : EdgeReq) (db0 : DB)
    (h1 : req.recipients.isEmpty = false)
    (h2 : (jsTrim req.message == "") = false)
    (h3 : env.supabaseConfigOk = true)
    (h4 : env.smsapiToken = none)
    (h5 : req.campaignId = none) :
    (edgeHandler env req db0).resp.status = 500 ∧
    (edgeHandler env req db0).resp.error = some "SMSAPI token not configured" ∧
    (edgeHandler env req db0).providerCalls = [] := by
  unfold edgeHandler
  simp [h1, h2, h3, h4, h5, edgeErr]

/-- C9 counterexample: with the token absent, the handler still inserts the
user row for a new recipient before returning the 500, so a database row
is written even though no gateway request is sent. -/
theorem C9_counterexample :
    (edgeHandler eenvNoTok ereqC9 dbEmpty).resp.status = 500 ∧
    (edgeHandler eenvNoTok ereqC9 dbEmpty).providerCalls = [] ∧
    (edgeHandler eenvNoTok ereqC9 dbEmpty).db.users =
      [{ phone := "+420777123456", uid := 0, country := "CZ", status := "active" }] ∧
    dbEmpty.users = [] :=
  ⟨by decide, by decide, by decide, rfl⟩

/-- Witness for the amended C9. -/
theorem C9_token_check_amended_witness :
    (edgeHandler eenvNoTok ereqC9 dbEmpty).resp.status = 500 ∧
    (edgeHandler eenvNoTok ereqC9 dbEmpty).resp.error =
      some "SMSAPI token not configured" := by
  have h := C9_token_check_amended eenvNoTok ereqC9 dbEmpty (by decide) (by decide)
    rfl rfl rfl
  exact ⟨h.1, h.2.1⟩

/-! ## C10 -/

/-- C10: sendSMS never surfaces an exception: it always returns a result
object, and whenever its body throws (validation failures and plain-branch
invoke failures are the Except.error outcomes of sendSMSBody), the outer
catch converts the thrown message into a result with success false and
that message as the error. -/
theorem C10_never_throws (env : HookEnv) (req : SMSReq) (db0 : DB) (m : String)
    (h : (sendSMSBody env req db0).2 = Except.error m) :
    (sendSMSModel env req db0).resp.success = false ∧
    (sendSMSModel env req db0).resp.error = some m := by
  rcases hb : sendSMSBody env req db0 with ⟨tr, ex⟩
  rw [hb] at h
  unfold sendSMSModel
  rw [hb]
  cases ex with
  | ok r => exact absurd h (by simp)
  | error e =>
    have he : e = m := by
      simpa using h
    subst he
    simp [catchResp, defaultResp]

/-- Witness for C10 at the empty-recipients validation throw. -/
theorem C10_never_throws_witness :
    (sendSMSBody envOk (reqOf [] "hi" none false) dbEmpty).2 =
      Except.error "No recipients provided" ∧
    (sendSMSModel envOk (reqOf [] "hi" none false) dbEmpty).resp.success = false ∧
    (sendSMSModel envOk (reqOf [] "hi" none false) dbEmpty).resp.error =
      some "No recipients provided" := by
  have h := C10_never_throws envOk (reqOf [] "hi" none false) dbEmpty
    "No recipients provided" rfl
  exact ⟨rfl, h.1, h.2⟩

end HhSms
